import Mathlib

/-!
Shallow embedding of `mailjet/__main__.py`: the GSM-7 encoding classifier,
the SMS segmentation evaluator, the message policy engine (`clean_message`),
the recipient pipeline (`find_recipient_data`, `get_recipients`,
`clean_phone_numbers`), the delivery loop (`send_sms`) and the orchestrator
(`run`).  External collaborators (the phone-number library and the HTTP
transport) are modelled as oracle parameters; printed output is modelled as
explicit diagnostic / event values.
-/

set_option maxRecDepth 10000

namespace Mailjet

/-- The GSM 03.38 primary alphabet, position in the string = 7-bit code. -/
def GSM7_CHARSET : List Char :=
  ("@£$¥èéùìòÇ\nØø\rÅåΔ_ΦΓΛΩΠΨΣΘΞ\x1bÆæßÉ !\"#¤%&'()*+,-./0123456789:;<=>?" ++
   "¡ABCDEFGHIJKLMNOPQRSTUVWXYZÄÖÑÜ§¿abcdefghijklmnopqrstuvwxyzäöñüà").toList

/-- The GSM 03.38 extension alphabet; undefined positions are filled with
the backtick character, position in the string = code after the escape. -/
def EXT_CHARSET : List Char :=
  ("````````````````````^```````````````````\x7b\x7d`````\\````````````[~]`" ++
   "|````````````````````````````````````€``````````````````````````").toList

/-- Python's `str.find`: index of the first occurrence of `c`, or `-1`. -/
def strFind (c : Char) : List Char → Int
  | [] => -1
  | x :: xs =>
    if x = c then 0
    else
      let r := strFind c xs
      if r = -1 then -1 else r + 1

/-- `gsm_encode`: classify each character of the message.  Returns the list
of omitted characters and the sequence of emitted GSM-7 code units (the
Python version hex-encodes this sequence; the code units themselves are the
faithful content). -/
def gsm_encode : List Char → List Char × List Nat
  | [] => ([], [])
  | c :: rest =>
    let r := gsm_encode rest
    let idx := strFind c GSM7_CHARSET
    if idx ≠ -1 then
      (r.1, idx.toNat :: r.2)
    else
      let idx2 := strFind c EXT_CHARSET
      if idx2 ≠ -1 then
        (c :: r.1, 27 :: idx2.toNat :: r.2)
      else
        (c :: r.1, r.2)

/-- `SMS_SIZES`: (gsm7 capacity, utf16 capacity) per concatenated-segment
count; index 0 = one segment. -/
def SMS_SIZES : List (Nat × Nat) :=
  [(160, 70), (306, 134), (459, 201), (612, 268), (765, 335)]

/-- The loop body of `count_messages` (the `for idx, (gsm7, utf16) in
enumerate(SMS_SIZES)` loop). -/
def count_messages_go (mode : String) (num_characters : Nat) :
    List (Nat × Nat) → Nat → Option Nat
  | [], _ => none
  | (gsm7, utf16) :: rest, idx =>
    if mode = "gsm7" then
      if gsm7 ≥ num_characters then some (idx + 1)
      else count_messages_go mode num_characters rest (idx + 1)
    else
      if utf16 ≥ num_characters then some (idx + 1)
      else count_messages_go mode num_characters rest (idx + 1)

/-- `count_messages`: number of concatenated segments required, or `none`
("unsendable") when no threshold accommodates the length. -/
def count_messages (num_characters : Nat) (mode : String) : Option Nat :=
  count_messages_go mode num_characters SMS_SIZES 0

/-- One printed line of `clean_message`.  `suggestionSavings` records the two
segment counts whose difference ratio the Python code prints as the
percentage saving. -/
inductive Diagnostic
  | errorTooLongUtf16
  | hintReplaceForGsm7 (omitted : List Char)
  | suggestionSavings (omitted : List Char) (num_gsm7 : Nat) (num_utf16 : Nat)
  | reportConcat (mode : String) (n : Nat)
  | reportSingle (mode : String)
deriving DecidableEq

/-- Observable outcome of `clean_message`: the returned sendability flag,
the printed diagnostics, and the two segment counts it computed. -/
structure CleanResult where
  sendable : Bool
  diags : List Diagnostic
  num_gsm7_msgs : Option Nat
  num_utf16_msgs : Option Nat
deriving DecidableEq

/-- `clean_message`: the message policy engine. -/
def clean_message (message : List Char) (dry_run : Bool) : CleanResult :=
  let characters_omitted := (gsm_encode message).1
  let num_gsm7_msgs := count_messages message.length "gsm7"
  let num_utf16_msgs := count_messages message.length "utf16"
  if characters_omitted ≠ [] then
    match num_utf16_msgs with
    | none =>
      let diags := [Diagnostic.errorTooLongUtf16] ++
        (if dry_run && num_gsm7_msgs.isSome then
          [Diagnostic.hintReplaceForGsm7 characters_omitted] else [])
      ⟨false, diags, num_gsm7_msgs, num_utf16_msgs⟩
    | some nu =>
      let sug := if dry_run then
        [Diagnostic.suggestionSavings characters_omitted
          (num_gsm7_msgs.getD 0) nu] else []
      let rep := if nu > 1 then [Diagnostic.reportConcat "utf16" nu]
        else [Diagnostic.reportSingle "utf16"]
      ⟨true, sug ++ rep, num_gsm7_msgs, num_utf16_msgs⟩
  else
    let rep := match num_gsm7_msgs with
      | some ng =>
        if ng > 1 then [Diagnostic.reportConcat "gsm7" ng]
        else [Diagnostic.reportSingle "gsm7"]
      | none => [Diagnostic.reportSingle "gsm7"]
    ⟨true, rep, num_gsm7_msgs, num_utf16_msgs⟩

/-- The mutable `data` dict of `send_sms` (the `From`/`Text` fields are set
once; `To` is overwritten per recipient). -/
structure SmsData where
  sms_from : String
  sms_text : List Char
  sms_to : Option String
deriving DecidableEq

/-- The result of one `requests.post` to the gateway. -/
structure TransportResult where
  status_code : Nat
  content : String
deriving DecidableEq

/-- Observable effects of the delivery loop. -/
inductive Event
  | dryRunNotice (recipient : String)
  | transportCall (data : SmsData)
  | deliveryError (recipient : String) (status : Nat) (content : String)
deriving DecidableEq

def Event.isTransportCall : Event → Bool
  | .transportCall _ => true
  | _ => false

/-- The `for recipient in recipient_list` loop of `send_sms`; `post` is the
HTTP transport oracle. -/
def send_sms_loop (data : SmsData) (dry_run : Bool)
    (post : SmsData → TransportResult) : List String → List Event
  | [] => []
  | recipient :: rest =>
    let data := { data with sms_to := some recipient }
    let here :=
      if dry_run then [Event.dryRunNotice recipient]
      else
        let res := post data
        Event.transportCall data ::
          (if res.status_code ≠ 200 then
            [Event.deliveryError recipient res.status_code res.content]
          else [])
    here ++ send_sms_loop data dry_run post rest

/-- `send_sms`: builds the request data and runs the delivery loop. -/
def send_sms (msg : List Char) (recipient_list : List String)
    (sender : String) (dry_run : Bool)
    (post : SmsData → TransportResult) : List Event :=
  send_sms_loop ⟨sender, msg, none⟩ dry_run post recipient_list

/-- A worksheet: `header` holds the row-1 cell values for columns
`1..max_column`; `rows` holds the value rows from row 2 downward. -/
structure Worksheet where
  header : List String
  rows : List (List String)
deriving DecidableEq

def Worksheet.max_column (s : Worksheet) : Nat := s.header.length

/-- `sheet.cell(1, c).value` for a 1-based column index `c`. -/
def Worksheet.cell1 (s : Worksheet) (c : Nat) : String := s.header.getD (c - 1) ""

/-- Python's `str.lower()` (character-wise lowercasing). -/
def strLower (s : String) : String := (s.toList.map Char.toLower).asString

/-- `find_recipient_data`: scan each sheet's top row over the 1-based column
indices `range(1, sheet.max_column)` for a recipient header; `none` models
the `RecipientsNotFoundException`. -/
def find_recipient_data : List Worksheet → Option (Worksheet × Nat)
  | [] => none
  | sheet :: rest =>
    match (List.range' 1 (sheet.max_column - 1)).find?
        (fun c => strLower (sheet.cell1 c) ∈
          ["sms", "cell", "mobile", "telephone"]) with
    | some c => some (sheet, c)
    | none => find_recipient_data rest

/-- `get_recipients`: the raw values (row 2 downward) of the found column;
`none` models the caught-exception path that prints and returns `None`. -/
def get_recipients (book : List Worksheet) : Option (List String) :=
  match find_recipient_data book with
  | some (sheet, column_num) =>
    some (sheet.rows.map (fun row => row.getD (column_num - 1) ""))
  | none => none

/-- Oracle interface for the `phonenumbers` library: `parse` returns `none`
where the library raises, `is_valid_number` and `format_number` (E164) act
on the parsed value. -/
structure PhoneLib (P : Type) where
  parse : String → Option P
  is_valid_number : P → Bool
  format_number : P → String

/-- One printed complaint of `clean_phone_numbers`. -/
inductive CleanReport
  | parseError (num : String)
  | invalidError (num : String)
deriving DecidableEq

/-- `p.replace('‭', '')`. -/
def stripLRO (p : String) : String :=
  (p.toList.filter (fun c => c ≠ '‭')).asString

/-- `cleaned_numbers.add(...)` on the Python set, modelled as an
insertion-ordered duplicate-free list. -/
def insertNew (l : List String) (x : String) : List String :=
  if x ∈ l then l else l ++ [x]

/-- The `for num in phone_list` loop of `clean_phone_numbers`, threading
(`error_found`, `cleaned_numbers`, printed reports). -/
def cpn_loop {P : Type} (lib : PhoneLib P) :
    List String → Bool → List String → List CleanReport →
    Bool × List String × List CleanReport
  | [], ef, cn, rp => (ef, cn, rp)
  | num :: rest, ef, cn, rp =>
    match lib.parse num with
    | none => cpn_loop lib rest true cn (rp ++ [CleanReport.parseError num])
    | some parsed =>
      if lib.is_valid_number parsed then
        cpn_loop lib rest ef (insertNew cn (lib.format_number parsed)) rp
      else
        cpn_loop lib rest true cn (rp ++ [CleanReport.invalidError num])

/-- `clean_phone_numbers`: strips LRO characters, validates every entry;
first component `none` models the `UnableToCleanException`, the second is
the list of printed complaints. -/
def clean_phone_numbers {P : Type} (lib : PhoneLib P)
    (phone_list : List String) : Option (List String) × List CleanReport :=
  let stripped := phone_list.map stripLRO
  let r := cpn_loop lib stripped false [] []
  (if r.1 then none else some r.2.1, r.2.2)

/-- Observable outcome of `run`. -/
structure RunOutcome where
  message_clean : Bool
  clean : CleanResult
  recipients : Option (List String)
  events : List Event
  nothing_to_do : Bool
deriving DecidableEq

/-- `run`: the orchestrator, for the direct-recipient path (`recipients0`
is the `recipients` argument; the spreadsheet branch is exercised through
`get_recipients` separately). -/
def run {P : Type} (lib : PhoneLib P) (post : SmsData → TransportResult)
    (message : List Char) (sender : String) (dry_run : Bool)
    (recipients0 : Option (List String)) : RunOutcome :=
  let cm := clean_message message dry_run
  let message_clean := cm.sendable
  let recipients1 : Option (List String) :=
    match recipients0 with
    | some rs => if rs ≠ [] then (clean_phone_numbers lib rs).1 else some rs
    | none => none
  let truthy := match recipients1 with
    | some (_ :: _) => true
    | _ => false
  if message_clean && truthy then
    ⟨message_clean, cm, recipients1,
      send_sms message (recipients1.getD []) sender dry_run post, false⟩
  else
    ⟨message_clean, cm, recipients1, [], true⟩

/-! ### Helper lemmas about `strFind` -/

theorem strFind_nonneg {c : Char} {l : List Char} (h : strFind c l ≠ -1) :
    0 ≤ strFind c l := by
  induction l with
  | nil => simp [strFind] at h
  | cons x xs ih =>
    simp only [strFind] at h ⊢
    by_cases hx : x = c
    · simp [hx]
    · simp only [hx, if_false] at h ⊢
      by_cases hr : strFind c xs = -1
      · simp [hr] at h
      · simp only [hr, if_false] at h ⊢
        have := ih hr
        omega

theorem strFind_ne_iff_mem (c : Char) (l : List Char) :
    strFind c l ≠ -1 ↔ c ∈ l := by
  induction l with
  | nil => simp [strFind]
  | cons x xs ih =>
    simp only [strFind]
    by_cases hx : x = c
    · simp [hx]
    · simp only [hx, if_false]
      by_cases hr : strFind c xs = -1
      · have : c ∉ xs := fun hm => (ih.mpr hm) hr
        simp [hr, this, List.mem_cons]
        exact fun he => hx he.symm
      · have h0 : 0 ≤ strFind c xs := strFind_nonneg hr
        have : strFind c xs + 1 ≠ -1 := by omega
        simp [hr, this, List.mem_cons, ih.mp hr]

theorem strFind_eq_neg_one_iff (c : Char) (l : List Char) :
    strFind c l = -1 ↔ c ∉ l := by
  rw [← strFind_ne_iff_mem]; tauto

/-! ### Helper lemmas about `gsm_encode` -/

theorem gsm_encode_cons (c : Char) (rest : List Char) :
    gsm_encode (c :: rest) =
      if strFind c GSM7_CHARSET ≠ -1 then
        ((gsm_encode rest).1,
          (strFind c GSM7_CHARSET).toNat :: (gsm_encode rest).2)
      else if strFind c EXT_CHARSET ≠ -1 then
        (c :: (gsm_encode rest).1,
          27 :: (strFind c EXT_CHARSET).toNat :: (gsm_encode rest).2)
      else
        (c :: (gsm_encode rest).1, (gsm_encode rest).2) := rfl

theorem gsm_encode_append (xs ys : List Char) :
    gsm_encode (xs ++ ys) =
      ((gsm_encode xs).1 ++ (gsm_encode ys).1,
       (gsm_encode xs).2 ++ (gsm_encode ys).2) := by
  induction xs with
  | nil => simp [gsm_encode]
  | cons c rest ih =>
    rw [List.cons_append, gsm_encode_cons, gsm_encode_cons, ih]
    by_cases h1 : strFind c GSM7_CHARSET ≠ -1
    · simp [h1]
    · by_cases h2 : strFind c EXT_CHARSET ≠ -1 <;> simp [h1, h2]

/-! ### Claim theorems -/

/-- C5: the classifier is a three-way split on each character of the
message: a primary-alphabet character is not added to the omitted list and
contributes exactly one code unit (its table position); a character found
only in the extension alphabet is added to the omitted list and contributes
exactly two code units (the escape code 27 followed by its table position);
a character in neither table is added to the omitted list and contributes
zero code units. -/
theorem C5_classifier_three_way (c : Char) (rest : List Char) :
    (c ∈ GSM7_CHARSET →
      (gsm_encode (c :: rest)).1 = (gsm_encode rest).1 ∧
      (gsm_encode (c :: rest)).2 =
        (strFind c GSM7_CHARSET).toNat :: (gsm_encode rest).2) ∧
    (c ∉ GSM7_CHARSET → c ∈ EXT_CHARSET →
      (gsm_encode (c :: rest)).1 = c :: (gsm_encode rest).1 ∧
      (gsm_encode (c :: rest)).2 =
        27 :: (strFind c EXT_CHARSET).toNat :: (gsm_encode rest).2) ∧
    (c ∉ GSM7_CHARSET → c ∉ EXT_CHARSET →
      (gsm_encode (c :: rest)).1 = c :: (gsm_encode rest).1 ∧
      (gsm_encode (c :: rest)).2 = (gsm_encode rest).2) := by
  refine ⟨fun h1 => ?_, fun h1 h2 => ?_, fun h1 h2 => ?_⟩ <;> rw [gsm_encode_cons]
  · simp [(strFind_ne_iff_mem c GSM7_CHARSET).mpr h1]
  · simp [(strFind_eq_neg_one_iff c GSM7_CHARSET).mpr h1,
      (strFind_ne_iff_mem c EXT_CHARSET).mpr h2]
  · simp [(strFind_eq_neg_one_iff c GSM7_CHARSET).mpr h1,
      (strFind_eq_neg_one_iff c EXT_CHARSET).mpr h2]

/-- Witness for C5 at concrete characters: 'a' (primary, code 97),
'€' (extension only, escape 27 then position 101), 'α' (in neither). -/
theorem C5_classifier_three_way_witness :
    ('a' ∈ GSM7_CHARSET ∧
      (gsm_encode ['a']).1 = [] ∧ (gsm_encode ['a']).2 = [97]) ∧
    ('€' ∉ GSM7_CHARSET ∧ '€' ∈ EXT_CHARSET ∧
      (gsm_encode ['€']).1 = ['€'] ∧ (gsm_encode ['€']).2 = [27, 101]) ∧
    ('α' ∉ GSM7_CHARSET ∧ 'α' ∉ EXT_CHARSET ∧
      (gsm_encode ['α']).1 = ['α'] ∧ (gsm_encode ['α']).2 = []) := by
  refine ⟨⟨by decide, ?_⟩, ⟨by decide, by decide, ?_⟩, ⟨by decide, by decide, ?_⟩⟩
  · obtain ⟨w1, w2⟩ := (C5_classifier_three_way 'a' []).1 (by decide)
    exact ⟨by rw [w1]; rfl, by rw [w2]; decide⟩
  · obtain ⟨w1, w2⟩ :=
      (C5_classifier_three_way '€' []).2.1 (by decide) (by decide)
    exact ⟨by rw [w1]; rfl, by rw [w2]; decide⟩
  · obtain ⟨w1, w2⟩ :=
      (C5_classifier_three_way 'α' []).2.2 (by decide) (by decide)
    exact ⟨by rw [w1]; rfl, by rw [w2]; rfl⟩

/-- Closed form of `count_messages` in gsm7 mode. -/
theorem count_messages_gsm7 (c : Nat) :
    count_messages c "gsm7" =
      if c ≤ 160 then some 1 else if c ≤ 306 then some 2
      else if c ≤ 459 then some 3 else if c ≤ 612 then some 4
      else if c ≤ 765 then some 5 else none := by
  simp only [count_messages, SMS_SIZES, count_messages_go, ge_iff_le,
    eq_self_iff_true, if_true]

/-- Closed form of `count_messages` in any mode other than gsm7. -/
theorem count_messages_not_gsm7 (c : Nat) (mode : String)
    (hm : mode ≠ "gsm7") :
    count_messages c mode =
      if c ≤ 70 then some 1 else if c ≤ 134 then some 2
      else if c ≤ 201 then some 3 else if c ≤ 268 then some 4
      else if c ≤ 335 then some 5 else none := by
  simp only [count_messages, SMS_SIZES, count_messages_go, ge_iff_le, hm,
    if_false, if_neg hm]

/-- Segment-count ordering with "unsendable" (`none`) as the top element. -/
def segLe : Option Nat → Option Nat → Bool
  | _, none => true
  | none, some _ => false
  | some a, some b => a ≤ b

/-- C6: the segmentation evaluator is monotone in the character count
(`none` = "unsendable" counting as larger than every finite count), returns
"unsendable" exactly when the count exceeds the largest threshold for the
mode (765 for gsm7, 335 otherwise), and otherwise returns index+1 for the
first threshold-table entry whose value for the mode accommodates the
count (every earlier entry being too small). -/
theorem C6_segmentation_monotone (c1 c2 : Nat) (mode : String)
    (h : c1 < c2) :
    segLe (count_messages c1 mode) (count_messages c2 mode) = true ∧
    (count_messages c2 mode = none ↔
      (if mode = "gsm7" then 765 else 335) < c2) ∧
    (∀ k, count_messages c2 mode = some k →
      1 ≤ k ∧
      ((SMS_SIZES.take (k - 1)).all
        (fun p => (if mode = "gsm7" then p.1 else p.2) < c2)) = true ∧
      ((SMS_SIZES.get? (k - 1)).any
        (fun p => c2 ≤ (if mode = "gsm7" then p.1 else p.2))) = true) := by
  by_cases hm : mode = "gsm7"
  · subst hm
    rw [count_messages_gsm7 c1, count_messages_gsm7 c2]
    simp only [eq_self_iff_true, if_true]
    refine ⟨?_, ?_, ?_⟩
    · split_ifs <;> simp [segLe] <;> omega
    · split_ifs <;> simp <;> omega
    · intro k hk
      split_ifs at hk <;>
        (injection hk with hk; subst hk;
          refine ⟨by omega, ?_, ?_⟩ <;> simp [SMS_SIZES] <;> omega)
  · rw [count_messages_not_gsm7 c1 mode hm, count_messages_not_gsm7 c2 mode hm]
    simp only [hm, if_false, if_neg hm]
    refine ⟨?_, ?_, ?_⟩
    · split_ifs <;> simp [segLe] <;> omega
    · split_ifs <;> simp <;> omega
    · intro k hk
      split_ifs at hk <;>
        (injection hk with hk; subst hk;
          refine ⟨by omega, ?_, ?_⟩ <;> simp [SMS_SIZES] <;> omega)

/-- Witness for C6 at `c1 = 100 < 200 = c2` in gsm7 mode. -/
theorem C6_segmentation_monotone_witness :
    segLe (count_messages 100 "gsm7") (count_messages 200 "gsm7") = true ∧
    (count_messages 200 "gsm7" = none ↔
      (if "gsm7" = "gsm7" then 765 else 335) < 200) ∧
    (∀ k, count_messages 200 "gsm7" = some k →
      1 ≤ k ∧
      ((SMS_SIZES.take (k - 1)).all
        (fun p => (if "gsm7" = "gsm7" then p.1 else p.2) < 200)) = true ∧
      ((SMS_SIZES.get? (k - 1)).any
        (fun p => 200 ≤ (if "gsm7" = "gsm7" then p.1 else p.2))) = true) :=
  C6_segmentation_monotone 100 200 "gsm7" (by decide)

/-- The segment counts computed by `clean_message` are exactly
`count_messages` applied to the message's character count. -/
theorem clean_message_counts (m : List Char) (dry : Bool) :
    (clean_message m dry).num_gsm7_msgs = count_messages m.length "gsm7" ∧
    (clean_message m dry).num_utf16_msgs = count_messages m.length "utf16" := by
  simp only [clean_message]
  split
  · split <;> exact ⟨rfl, rfl⟩
  · exact ⟨rfl, rfl⟩

/-- C9: for both modes the segment count is computed from the character
count of the original message text, not from the encoded output; two
messages of equal character count always get identical segment counts, so
dropping unrepresentable characters or escape-doubling extension-alphabet
characters never changes the counted length fed to the evaluator. -/
theorem C9_counts_from_length (m1 m2 : List Char) (dry : Bool)
    (h : m1.length = m2.length) :
    (clean_message m1 dry).num_gsm7_msgs = count_messages m1.length "gsm7" ∧
    (clean_message m1 dry).num_utf16_msgs = count_messages m1.length "utf16" ∧
    (clean_message m1 dry).num_gsm7_msgs =
      (clean_message m2 dry).num_gsm7_msgs ∧
    (clean_message m1 dry).num_utf16_msgs =
      (clean_message m2 dry).num_utf16_msgs := by
  obtain ⟨h1, h2⟩ := clean_message_counts m1 dry
  obtain ⟨h3, h4⟩ := clean_message_counts m2 dry
  exact ⟨h1, h2, by rw [h1, h3, h], by rw [h2, h4, h]⟩

/-- Witness for C9: "€€" (escape-doubled: 4 encoded units for 2 characters)
and "ab" (2 encoded units) have the same character count and get the same
segment counts. -/
theorem C9_counts_from_length_witness :
    (gsm_encode ['€', '€']).2.length = 4 ∧
    (gsm_encode ['a', 'b']).2.length = 2 ∧
    ((clean_message ['€', '€'] true).num_gsm7_msgs =
        count_messages (['€', '€'] : List Char).length "gsm7" ∧
      (clean_message ['€', '€'] true).num_utf16_msgs =
        count_messages (['€', '€'] : List Char).length "utf16" ∧
      (clean_message ['€', '€'] true).num_gsm7_msgs =
        (clean_message ['a', 'b'] true).num_gsm7_msgs ∧
      (clean_message ['€', '€'] true).num_utf16_msgs =
        (clean_message ['a', 'b'] true).num_utf16_msgs) :=
  ⟨by decide, by decide,
    C9_counts_from_length ['€', '€'] ['a', 'b'] true (by decide)⟩

/-- `true` iff a cost-saving suggestion is among the diagnostics. -/
def hasSuggestion (l : List Diagnostic) : Bool :=
  l.any fun d =>
    match d with
    | Diagnostic.suggestionSavings _ _ _ => true
    | _ => false

/-- When the message fits in utf16 mode it also fits in gsm7 mode. -/
theorem gsm7_some_of_utf16_some {c nu : Nat}
    (h : count_messages c "utf16" = some nu) :
    ∃ ng, count_messages c "gsm7" = some ng := by
  rw [count_messages_not_gsm7 c "utf16" (by decide)] at h
  rw [count_messages_gsm7]
  split_ifs at h ⊢ <;>
    first
      | exact ⟨_, rfl⟩
      | exact Option.noConfusion h
      | (exfalso; omega)

/-- C1 counterexample: for the one-character message "€" — omitted set
non-empty, sendable in wide-alphabet mode, both segment counts equal 1 —
advisory mode emits the cost-saving suggestion even though the
restricted-alphabet segment count is not strictly smaller, refuting the
claimed "if and only if" and the claimed no-suggestion scenario. -/
theorem C1_suggestion_counterexample :
    (gsm_encode ['€']).1 ≠ [] ∧
    count_messages (['€'] : List Char).length "utf16" = some 1 ∧
    count_messages (['€'] : List Char).length "gsm7" = some 1 ∧
    hasSuggestion (clean_message ['€'] true).diags = true := by decide

/-- C1 (amended): for every message whose omitted set is non-empty and
which is sendable in wide-alphabet mode, advisory mode always emits the
cost-saving suggestion quoting the omitted characters and the two segment
counts (whose difference ratio is the printed reduction), regardless of
whether the restricted-alphabet count is strictly smaller; outside advisory
mode no suggestion is emitted. -/
theorem C1_suggestion_unconditional (message : List Char) (nu : Nat)
    (h1 : (gsm_encode message).1 ≠ [])
    (h2 : count_messages message.length "utf16" = some nu) :
    ∃ ng, count_messages message.length "gsm7" = some ng ∧
      (clean_message message true).diags =
        Diagnostic.suggestionSavings (gsm_encode message).1 ng nu ::
          (if nu > 1 then [Diagnostic.reportConcat "utf16" nu]
           else [Diagnostic.reportSingle "utf16"]) ∧
      hasSuggestion (clean_message message false).diags = false := by
  obtain ⟨ng, hg⟩ := gsm7_some_of_utf16_some h2
  have hnot : ¬((gsm_encode message).1 = []) := h1
  refine ⟨ng, hg, ?_, ?_⟩
  · simp [clean_message, hnot, h2, hg]
  · have hd : (clean_message message false).diags =
        (if nu > 1 then [Diagnostic.reportConcat "utf16" nu]
         else [Diagnostic.reportSingle "utf16"]) := by
      simp [clean_message, hnot, h2, hg]
    rw [hd]
    split_ifs <;> rfl

/-- Witness for the amended C1 at the message "€". -/
theorem C1_suggestion_unconditional_witness :
    (gsm_encode ['€']).1 ≠ [] ∧
    count_messages (['€'] : List Char).length "utf16" = some 1 ∧
    (∃ ng, count_messages (['€'] : List Char).length "gsm7" = some ng ∧
      (clean_message ['€'] true).diags =
        Diagnostic.suggestionSavings (gsm_encode ['€']).1 ng 1 ::
          (if 1 > 1 then [Diagnostic.reportConcat "utf16" 1]
           else [Diagnostic.reportSingle "utf16"]) ∧
      hasSuggestion (clean_message ['€'] false).diags = false) :=
  ⟨by decide, by decide,
    C1_suggestion_unconditional ['€'] 1 (by decide) (by decide)⟩

/-- C10: the backtick, the filler symbol of the extension table, occupies
(first) position 0 there; wherever it occurs in a message the classifier
treats it as extension-encodable: it contributes the two-unit escape
sequence 27, 0 to the encoded output and is added to the omitted list,
rather than being dropped with zero code units. -/
theorem C10_backtick_is_extension (pre post : List Char) :
    strFind (Char.ofNat 96) GSM7_CHARSET = -1 ∧
    strFind (Char.ofNat 96) EXT_CHARSET = 0 ∧
    (gsm_encode (pre ++ Char.ofNat 96 :: post)).1 =
      (gsm_encode pre).1 ++ Char.ofNat 96 :: (gsm_encode post).1 ∧
    (gsm_encode (pre ++ Char.ofNat 96 :: post)).2 =
      (gsm_encode pre).2 ++ 27 :: 0 :: (gsm_encode post).2 := by
  refine ⟨by decide, by decide, ?_, ?_⟩ <;>
    rw [gsm_encode_append, gsm_encode_cons] <;>
    simp [show strFind (Char.ofNat 96) GSM7_CHARSET = -1 from by decide,
      show strFind (Char.ofNat 96) EXT_CHARSET = 0 from by decide]

/-- The loop overwrites the `To` field before every send, so only the
`From` and `Text` fields of the incoming request data matter. -/
theorem send_sms_loop_to_irrel (d1 d2 : SmsData) (dry : Bool)
    (post : SmsData → TransportResult) (rs : List String)
    (hF : d1.sms_from = d2.sms_from) (hT : d1.sms_text = d2.sms_text) :
    send_sms_loop d1 dry post rs = send_sms_loop d2 dry post rs := by
  cases rs with
  | nil => rfl
  | cons r rest =>
    have hd : ({ d1 with sms_to := some r } : SmsData) =
        { d2 with sms_to := some r } := by
      cases d1; cases d2; simp_all
    simp only [send_sms_loop]
    rw [hd]

/-- C3: in live mode the delivery loop visits the recipients one at a time
in the order of the recipient list; each recipient gets exactly one
transport call with `To` set to it, a non-success transport status is
reported as an error for that recipient only, and neither the error nor
anything else stops the loop from attempting the remaining recipients. -/
theorem C3_delivery_per_recipient (data : SmsData)
    (post : SmsData → TransportResult) (recipients : List String) :
    send_sms_loop data false post recipients =
      recipients.flatMap (fun recipient =>
        Event.transportCall { data with sms_to := some recipient } ::
          (if (post { data with sms_to := some recipient }).status_code ≠ 200
           then [Event.deliveryError recipient
              (post { data with sms_to := some recipient }).status_code
              (post { data with sms_to := some recipient }).content]
           else [])) := by
  induction recipients generalizing data with
  | nil => rfl
  | cons r rest ih =>
    rw [List.flatMap_cons, ← ih data]
    simp only [send_sms_loop]
    rw [send_sms_loop_to_irrel ({ data with sms_to := some r })
      data false post rest rfl rfl]
    simp

/-- The dry-run loop only emits one placeholder notice per recipient. -/
theorem send_sms_loop_dry_run (post : SmsData → TransportResult)
    (d : SmsData) (l : List String) :
    send_sms_loop d true post l = l.map Event.dryRunNotice := by
  induction l generalizing d with
  | nil => rfl
  | cons r rest ih => simp [send_sms_loop, ih]

/-- C8: with the dry-run flag set, the transport is never invoked — no run,
whatever its message and recipients, produces a transport call — and the
delivery loop emits exactly one placeholder notice per recipient instead. -/
theorem C8_dry_run_never_posts {P : Type} (lib : PhoneLib P)
    (post : SmsData → TransportResult) (message : List Char) (sender : String)
    (recipients0 : Option (List String)) (data : SmsData)
    (rs : List String) :
    (run lib post message sender true recipients0).events.all
      (fun e => !e.isTransportCall) = true ∧
    send_sms_loop data true post rs = rs.map Event.dryRunNotice := by
  have hall : ∀ l : List String,
      (l.map Event.dryRunNotice).all (fun e => !e.isTransportCall) = true := by
    intro l
    induction l with
    | nil => rfl
    | cons r rest ih => simp [Event.isTransportCall, ih]
  refine ⟨?_, send_sms_loop_dry_run post data rs⟩
  simp only [run]
  split
  · simp only [send_sms, send_sms_loop_dry_run]
    exact hall _
  · rfl

/-- An entry fails validation: the parse raises, or the parsed number is
not valid. -/
def entryFailsB {P : Type} (lib : PhoneLib P) (num : String) : Bool :=
  match lib.parse num with
  | none => true
  | some p => !lib.is_valid_number p

/-- The complaint `clean_phone_numbers` prints for an entry, if any. -/
def reportOf {P : Type} (lib : PhoneLib P) (num : String) :
    Option CleanReport :=
  match lib.parse num with
  | none => some (CleanReport.parseError num)
  | some p =>
    if lib.is_valid_number p then none else some (CleanReport.invalidError num)

/-- Characterization of the validation loop: the error flag is set exactly
when some entry fails, and the printed complaints are one per failing
entry, appended in order. -/
theorem cpn_loop_spec {P : Type} (lib : PhoneLib P) (l : List String)
    (ef : Bool) (cn : List String) (rp : List CleanReport) :
    (cpn_loop lib l ef cn rp).1 = (ef || l.any (entryFailsB lib)) ∧
    (cpn_loop lib l ef cn rp).2.2 = rp ++ l.filterMap (reportOf lib) := by
  induction l generalizing ef cn rp with
  | nil => simp [cpn_loop]
  | cons num rest ih =>
    cases hp : lib.parse num with
    | none =>
      simp only [cpn_loop, hp, List.any_cons, List.filterMap_cons,
        entryFailsB, reportOf]
      rw [(ih true cn (rp ++ [CleanReport.parseError num])).1,
        (ih true cn (rp ++ [CleanReport.parseError num])).2]
      simp [entryFailsB, hp]
    | some p =>
      by_cases hv : lib.is_valid_number p
      · simp only [cpn_loop, hp, hv, if_true, List.any_cons,
          List.filterMap_cons, entryFailsB, reportOf]
        rw [(ih ef (insertNew cn (lib.format_number p)) rp).1,
          (ih ef (insertNew cn (lib.format_number p)) rp).2]
        simp [entryFailsB, reportOf, hp, hv]
      · simp only [cpn_loop, hp, hv, Bool.false_eq_true, if_false,
          List.any_cons, List.filterMap_cons, entryFailsB, reportOf]
        rw [(ih true cn (rp ++ [CleanReport.invalidError num])).1,
          (ih true cn (rp ++ [CleanReport.invalidError num])).2]
        simp [entryFailsB, reportOf, hp, hv]

/-- C7: if any (LRO-stripped) entry of the recipient list fails to parse or
is invalid, every failing entry gets its own printed complaint, the whole
recipient set is discarded (the cleaner signals failure), and the run makes
zero delivery attempts: no events at all, "nothing to do". -/
theorem C7_batch_fail_closed {P : Type} (lib : PhoneLib P)
    (post : SmsData → TransportResult) (message : List Char) (sender : String)
    (dry_run : Bool) (rs : List String)
    (h : (rs.map stripLRO).any (entryFailsB lib) = true) :
    (clean_phone_numbers lib rs).1 = none ∧
    (∀ num ∈ rs.map stripLRO, entryFailsB lib num = true →
      ∃ r, reportOf lib num = some r ∧ r ∈ (clean_phone_numbers lib rs).2) ∧
    (run lib post message sender dry_run (some rs)).events = [] ∧
    (run lib post message sender dry_run (some rs)).nothing_to_do = true := by
  obtain ⟨hflag, hreports⟩ := cpn_loop_spec lib (rs.map stripLRO) false [] []
  have hclean1 : (clean_phone_numbers lib rs).1 = none := by
    simp only [clean_phone_numbers, hflag, Bool.false_or, h, if_true]
  have hclean2 : (clean_phone_numbers lib rs).2 =
      (rs.map stripLRO).filterMap (reportOf lib) := by
    simp only [clean_phone_numbers, hreports, List.nil_append]
  refine ⟨hclean1, ?_, ?_, ?_⟩
  · intro num hmem hfail
    have hsome : ∃ r, reportOf lib num = some r := by
      cases hp : lib.parse num with
      | none => exact ⟨CleanReport.parseError num, by simp [reportOf, hp]⟩
      | some p =>
        have hv : lib.is_valid_number p = false := by
          have hf := hfail
          simp [entryFailsB, hp] at hf
          exact hf
        exact ⟨CleanReport.invalidError num, by simp [reportOf, hp, hv]⟩
    obtain ⟨r, hr⟩ := hsome
    exact ⟨r, hr, by
      rw [hclean2]
      exact List.mem_filterMap.mpr ⟨num, hmem, hr⟩⟩
  all_goals
    have hne : rs ≠ [] := by
      intro hrs
      rw [hrs] at h
      simp at h
    simp [run, hne, hclean1]


/-- A concrete phone-number oracle for witnesses: "bad" fails to parse,
everything else parses to itself and is valid. -/
def libBad : PhoneLib String :=
  ⟨fun s => if s = "bad" then none else some s, fun _ => true, fun s => s⟩

/-- An always-parse, always-valid phone oracle. -/
def libOk : PhoneLib String := ⟨fun s => some s, fun _ => true, fun s => s⟩

/-- A transport oracle that always answers status 200 with empty body. -/
def postOk : SmsData → TransportResult := fun _ => ⟨200, ""⟩

/-- Witness for C7: a batch with one malformed number among valid ones is
rejected wholesale, the failing entry is reported, and no delivery events
happen. -/
theorem C7_batch_fail_closed_witness :
    ((["bad", "+12125551212"].map stripLRO).any (entryFailsB libBad)
      = true) ∧
    ((clean_phone_numbers libBad ["bad", "+12125551212"]).1 = none ∧
      (∀ num ∈ ["bad", "+12125551212"].map stripLRO,
        entryFailsB libBad num = true →
        ∃ r, reportOf libBad num = some r ∧
          r ∈ (clean_phone_numbers libBad ["bad", "+12125551212"]).2) ∧
      (run libBad postOk ['a'] "me" false
        (some ["bad", "+12125551212"])).events = [] ∧
      (run libBad postOk ['a'] "me" false
        (some ["bad", "+12125551212"])).nothing_to_do = true) :=
  ⟨by decide, C7_batch_fail_closed libBad postOk ['a'] "me" false
    ["bad", "+12125551212"] (by decide)⟩

/-- The 766-character all-'a' message: longer than the largest gsm7
threshold (765). -/
def msg766 : List Char := List.replicate 766 'a'

/-- C2 evaluated at the failing input: a message with an empty omitted set
whose character count (766) exceeds the largest restricted-alphabet
threshold (765) is reported as a "single GSM-7 message", `clean_message`
returns send-able, and the run proceeds to call the transport for its
recipient instead of skipping delivery. -/
theorem C2_overlong_gsm7_still_sent :
    (gsm_encode msg766).1 = [] ∧
    count_messages msg766.length "gsm7" = none ∧
    (clean_message msg766 false).sendable = true ∧
    (clean_message msg766 false).diags = [Diagnostic.reportSingle "gsm7"] ∧
    (run libOk postOk msg766 "me" false (some ["+12125551212"])).events =
      [Event.transportCall ⟨"me", msg766, some "+12125551212"⟩] := by decide

/-- A workbook whose single worksheet has the matching header "SMS" in the
last populated column (column 2 of 2). -/
def bookLastCol : List Worksheet :=
  [⟨["name", "SMS"], [["+12125551212"]]⟩]

/-- C4 evaluated at the failing input: the header scan runs over
`range(1, max_column)`, which excludes the last 1-based column, so a
matching header located in the last populated column is not found: the
reader signals "column not found" and yields no recipients even though a
case-insensitively matching header exists in the sheet. -/
theorem C4_last_column_header_missed :
    (strLower (Worksheet.cell1 ⟨["name", "SMS"], [["+12125551212"]]⟩ 2) ∈
      ["sms", "cell", "mobile", "telephone"]) ∧
    Worksheet.max_column ⟨["name", "SMS"], [["+12125551212"]]⟩ = 2 ∧
    find_recipient_data bookLastCol = none ∧
    get_recipients bookLastCol = none := by decide

end Mailjet
